import Mathlib

/-!
Verification of the Tetsy negotiation backend, the seller policy rule, and the
A2A/ADK protocol bridge, against a shallow embedding of the repository source.

Negotiation amounts (SQLite REAL columns holding prices passed through
unchanged) are modelled as rationals; the backend performs no arithmetic on
them. Message content strings that the handlers build with Python f-string
money formatting are modelled with a plain toString rendering: no claim
inspects the content text, only the case in which formatting a missing
amount raises is captured (as an application error).
-/

namespace Tetsy

/-- Row of the `negotiations` table (src/Tetsy/backend/main.py, init_db). -/
structure Negotiation where
  id : String
  product_id : String
  buyer_id : String
  seller_id : String
  product_title : String
  product_image : Option String
  status : String
  last_offer_amount : Option ℚ
  created_at : Nat
  updated_at : Nat
  archived : Bool
deriving DecidableEq, Repr

/-- Row of the `messages` table (src/Tetsy/backend/main.py, init_db). -/
structure Message where
  id : String
  negotiation_id : String
  sender_id : String
  sender_type : String
  content : String
  type : String
  offer_amount : Option ℚ
  timestamp : Nat
  read_by_seller : Bool
  read_by_buyer : Bool
deriving DecidableEq, Repr

/-- Database state: rows of the two tables in insertion order. -/
structure DB where
  negotiations : List Negotiation
  messages : List Message
deriving DecidableEq, Repr

/-- Mock buyer ID (single user), `BUYER_ID = "buyer-001"` in main.py. -/
def BUYER_ID : String := "buyer-001"

/-- `CHECK (status IN ('pending', 'accepted', 'rejected', 'counter'))`. -/
def negStatusOk (s : String) : Bool :=
  s == "pending" || s == "accepted" || s == "rejected" || s == "counter"

/-- `CHECK (type IN ('message', 'offer', 'counter_offer'))`. -/
def msgTypeOk (t : String) : Bool :=
  t == "message" || t == "offer" || t == "counter_offer"

/-- `CHECK (sender_type IN ('buyer', 'seller'))`. -/
def senderTypeOk (s : String) : Bool :=
  s == "buyer" || s == "seller"

/-- Error outcome of a handler.  Every exception raised inside a handler's
`try` block (including the explicit `HTTPException(403)`) is re-raised by the
`except Exception` clause as an HTTP 500, so all constructors surface to the
client as a failed request; the constructors record which exception was
raised inside the transaction. -/
inductive ApiError where
  /-- `HTTPException(status_code=403, detail="Not authorized")`. -/
  | notAuthorized
  /-- `sqlite3.IntegrityError` from a PRIMARY KEY or CHECK violation. -/
  | integrity
  /-- Python-level error while building statement parameters
  (formatting a `None` amount with `:.2f`). -/
  | appError
deriving DecidableEq, Repr

/-- `INSERT INTO negotiations ...`: fails on a duplicate primary key or on a
status outside the CHECK constraint; otherwise appends the row. -/
def insertNegotiation (db : DB) (n : Negotiation) : Except ApiError DB :=
  if db.negotiations.any (fun x => x.id == n.id) then .error .integrity
  else if !negStatusOk n.status then .error .integrity
  else .ok { db with negotiations := db.negotiations ++ [n] }

/-- `INSERT INTO messages ...`: fails on a duplicate primary key or on a
type/sender_type outside the CHECK constraints; otherwise appends the row.
(Foreign keys are not enforced: the source never issues
`PRAGMA foreign_keys=ON`, and SQLite defaults to off.) -/
def insertMessage (db : DB) (m : Message) : Except ApiError DB :=
  if db.messages.any (fun x => x.id == m.id) then .error .integrity
  else if !msgTypeOk m.type then .error .integrity
  else if !senderTypeOk m.sender_type then .error .integrity
  else .ok { db with messages := db.messages ++ [m] }

/-- `UPDATE negotiations SET ... WHERE pred`: the CHECK constraint is
verified on every updated row; a violation aborts the whole statement with
no row changed, otherwise all matching rows are rewritten by `f`. -/
def updateNegotiations (db : DB) (pred : Negotiation → Bool)
    (f : Negotiation → Negotiation) : Except ApiError DB :=
  if db.negotiations.any (fun n => pred n && !negStatusOk (f n).status) then
    .error .integrity
  else
    .ok { db with negotiations := db.negotiations.map (fun n => if pred n then f n else n) }

/-- Python truthiness of an `Optional[str]`: `None` and `""` are falsy. -/
def strTruthy : Option String → Bool
  | none => false
  | some s => !(s == "")

/-- `x or fallback` on an `Optional[str]`. -/
def orElseStr (msg : Option String) (fallback : String) : String :=
  if strTruthy msg then msg.getD "" else fallback

/-- Rendering of an amount into message content (abstracts `f"${x:.2f}"`;
content text is never inspected by any property). -/
def fmtMoney (q : ℚ) : String := "$" ++ toString q

/-- `response.message or f"I can do ${response.counter_amount:.2f}"`: the
f-string is only evaluated when `message` is falsy, and formatting `None`
with `:.2f` raises a `TypeError` (surfaced as HTTP 500). -/
def counterContent (message : Option String) (amount : Option ℚ) :
    Except ApiError String :=
  if strTruthy message then .ok (message.getD "")
  else
    match amount with
    | some a => .ok ("I can do " ++ fmtMoney a)
    | none => .error .appError

/-- Pydantic model `SellerOfferResponse`. -/
structure SellerOfferResponse where
  negotiation_id : String
  seller_id : String
  action : String
  counter_amount : Option ℚ := none
  message : Option String := none
deriving DecidableEq, Repr

/-- Pydantic model `SendMessageRequest`. -/
structure SendMessageRequest where
  negotiation_id : String
  content : String
  type : String := "message"
  offer_amount : Option ℚ := none
deriving DecidableEq, Repr

/-- Pydantic model `StartNegotiationRequest`. -/
structure StartNegotiationRequest where
  product_id : String
  product_title : String
  product_image : Option String := none
  seller_id : String
  offer_amount : ℚ
  message : Option String := none
deriving DecidableEq, Repr

/-- Pydantic model `SellerMessageRequest`. -/
structure SellerMessageRequest where
  negotiation_id : String
  seller_id : String
  content : String
  type : String
  counter_offer_amount : Option ℚ := none
deriving DecidableEq, Repr

/-- The message row inserted by `send_message`; its id is derived solely
from the wall clock in whole milliseconds (`f"msg-{int(...timestamp()*1000)}"`). -/
def mkBuyerMsg (now : Nat) (negotiation_id : String) (request : SendMessageRequest) :
    Message :=
  { id := "msg-" ++ toString now
    negotiation_id := negotiation_id
    sender_id := BUYER_ID
    sender_type := "buyer"
    content := request.content
    type := request.type
    offer_amount := request.offer_amount
    timestamp := now
    read_by_seller := false
    read_by_buyer := false }

/-- Handler results pair the persisted database (the committed state; on any
exception before `commit()` the connection is closed and the open transaction
rolls back, so the original state is what remains) with the HTTP outcome. -/
abbrev HResult (α : Type) := DB × Except ApiError α

/-- `POST /api/negotiations/{id}/messages` (`send_message`, main.py): verify
buyer ownership, insert the message, and when `type == "offer"` update
`last_offer_amount` and reset status to `'pending'`; single commit at the end. -/
def send_message (db : DB) (now : Nat) (negotiation_id : String)
    (request : SendMessageRequest) : HResult Unit :=
  if !(db.negotiations.any (fun n => n.id == negotiation_id && n.buyer_id == BUYER_ID)) then
    (db, .error .notAuthorized)
  else
    match insertMessage db (mkBuyerMsg now negotiation_id request) with
    | .error e => (db, .error e)
    | .ok db1 =>
      if request.type == "offer" then
        match updateNegotiations db1 (fun n => n.id == negotiation_id)
            (fun n => { n with last_offer_amount := request.offer_amount,
                               status := "pending" }) with
        | .error e => (db, .error e)
        | .ok db2 => (db2, .ok ())
      else (db1, .ok ())

/-- `POST /api/negotiations/{id}/accept` (`buyer_accept_negotiation`):
`UPDATE negotiations SET status='accepted', updated_at=CURRENT_TIMESTAMP
WHERE id = ? AND buyer_id = ?` — no existence check, no status check;
an update matching zero rows still commits and reports success. -/
def buyer_accept_negotiation (db : DB) (now : Nat) (negotiation_id : String) :
    HResult Unit :=
  match updateNegotiations db
      (fun n => n.id == negotiation_id && n.buyer_id == BUYER_ID)
      (fun n => { n with status := "accepted", updated_at := now }) with
  | .error e => (db, .error e)
  | .ok db1 => (db1, .ok ())

/-- The counter-offer message row inserted by `seller_respond_to_offer`. -/
def mkCounterMsg (now : Nat) (negotiation_id seller_id : String)
    (content : String) (counter_amount : Option ℚ) : Message :=
  { id := "msg-" ++ toString now
    negotiation_id := negotiation_id
    sender_id := seller_id
    sender_type := "seller"
    content := content
    type := "counter_offer"
    offer_amount := counter_amount
    timestamp := now
    read_by_seller := false
    read_by_buyer := false }

/-- `status = response.action if response.action != "counter" else "counter"`
(main.py line 446): both branches of this conditional yield the action
string itself, so the raw action is written into the status column. -/
def respondStatus (action : String) : String :=
  if action != "counter" then action else "counter"

/-- `POST /api/seller/{sid}/negotiations/{id}/respond`
(`seller_respond_to_offer`): after the ownership check, the raw
`respondStatus response.action` string is written verbatim into the status
column (so `'accept'` / `'reject'` hit the CHECK constraint); the counter
branch then inserts the counter_offer message and updates
`last_offer_amount`; one commit at the end. -/
def seller_respond_to_offer (db : DB) (now : Nat)
    (seller_id negotiation_id : String) (response : SellerOfferResponse) :
    HResult Unit :=
  if !(db.negotiations.any (fun n => n.id == negotiation_id && n.seller_id == seller_id)) then
    (db, .error .notAuthorized)
  else
    match updateNegotiations db (fun n => n.id == negotiation_id)
        (fun n => { n with status := respondStatus response.action, updated_at := now }) with
    | .error e => (db, .error e)
    | .ok db1 =>
      if response.action == "counter" then
        match counterContent response.message response.counter_amount with
        | .error e => (db, .error e)
        | .ok content =>
          match insertMessage db1
              (mkCounterMsg now negotiation_id seller_id content response.counter_amount) with
          | .error e => (db, .error e)
          | .ok db2 =>
            match updateNegotiations db2 (fun n => n.id == negotiation_id)
                (fun n => { n with last_offer_amount := response.counter_amount }) with
            | .error e => (db, .error e)
            | .ok db3 => (db3, .ok ())
      else (db1, .ok ())

/-- The message row inserted by `seller_send_message` (the INSERT omits the
`offer_amount` column, so it is NULL whatever the declared type). -/
def mkSellerMsg (now : Nat) (negotiation_id seller_id : String)
    (request : SellerMessageRequest) : Message :=
  { id := "msg-" ++ toString now
    negotiation_id := negotiation_id
    sender_id := seller_id
    sender_type := "seller"
    content := request.content
    type := request.type
    offer_amount := none
    timestamp := now
    read_by_seller := false
    read_by_buyer := false }

/-- `POST /api/seller/{sid}/negotiations/{id}/message` (`seller_send_message`):
inserts the message with no ownership check and no negotiation update. -/
def seller_send_message (db : DB) (now : Nat)
    (seller_id negotiation_id : String) (request : SellerMessageRequest) :
    HResult Unit :=
  match insertMessage db (mkSellerMsg now negotiation_id seller_id request) with
  | .error e => (db, .error e)
  | .ok db1 => (db1, .ok ())

/-- `POST /api/seller/{sid}/negotiations/{id}/accept` (`seller_accept_offer`):
a bare UPDATE to `'accepted'`, committed and reported success even when zero
rows match. -/
def seller_accept_offer (db : DB) (now : Nat)
    (seller_id negotiation_id : String) : HResult Unit :=
  match updateNegotiations db
      (fun n => n.id == negotiation_id && n.seller_id == seller_id)
      (fun n => { n with status := "accepted", updated_at := now }) with
  | .error e => (db, .error e)
  | .ok db1 => (db1, .ok ())

/-- `POST /api/seller/{sid}/negotiations/{id}/reject` (`seller_reject_offer`):
a bare UPDATE to `'rejected'`, committed and reported success even when zero
rows match. -/
def seller_reject_offer (db : DB) (now : Nat)
    (seller_id negotiation_id : String) : HResult Unit :=
  match updateNegotiations db
      (fun n => n.id == negotiation_id && n.seller_id == seller_id)
      (fun n => { n with status := "rejected", updated_at := now }) with
  | .error e => (db, .error e)
  | .ok db1 => (db1, .ok ())

/-- The negotiation row inserted by `start_negotiation`; its id is derived
solely from the wall clock in whole milliseconds (`f"neg-{int(...*1000)}"`). -/
def mkNegotiation (nowNeg : Nat) (request : StartNegotiationRequest) : Negotiation :=
  { id := "neg-" ++ toString nowNeg
    product_id := request.product_id
    buyer_id := BUYER_ID
    seller_id := request.seller_id
    product_title := request.product_title
    product_image := request.product_image
    status := "pending"
    last_offer_amount := some request.offer_amount
    created_at := nowNeg
    updated_at := nowNeg
    archived := false }

/-- The initial offer message inserted by `start_negotiation`. -/
def mkInitialMsg (nowMsg : Nat) (nowNeg : Nat) (request : StartNegotiationRequest) :
    Message :=
  { id := "msg-" ++ toString nowMsg
    negotiation_id := "neg-" ++ toString nowNeg
    sender_id := BUYER_ID
    sender_type := "buyer"
    content := orElseStr request.message
      ("I would like to offer " ++ fmtMoney request.offer_amount ++ " for this item.")
    type := "offer"
    offer_amount := some request.offer_amount
    timestamp := nowMsg
    read_by_seller := false
    read_by_buyer := false }

/-- `POST /api/negotiations` (`start_negotiation`): inserts the negotiation
(status `'pending'`, `last_offer_amount = offerAmount`) and the initial offer
message; the two ids come from two separate `datetime.now()` reads
(`nowNeg`, `nowMsg`); one commit at the end. -/
def start_negotiation (db : DB) (nowNeg nowMsg : Nat)
    (request : StartNegotiationRequest) : HResult String :=
  match insertNegotiation db (mkNegotiation nowNeg request) with
  | .error e => (db, .error e)
  | .ok db1 =>
    match insertMessage db1 (mkInitialMsg nowMsg nowNeg request) with
    | .error e => (db, .error e)
    | .ok db2 => (db2, .ok ("neg-" ++ toString nowNeg))

/-- Message types that carry an offer amount. -/
def isOfferType (t : String) : Bool := t == "offer" || t == "counter_offer"

/-- The most recent message of type offer/counter_offer in the thread of a
given negotiation (messages are kept in insertion order, which matches the
`ORDER BY timestamp ASC` read order). -/
def lastOfferMessage (msgs : List Message) (negotiation_id : String) : Option Message :=
  (msgs.filter (fun m => m.negotiation_id == negotiation_id && isOfferType m.type)).getLast?

/-- One negotiation row satisfies the spec's `last_offer_amount` invariant
against a message list. -/
def negMsgOk (msgs : List Message) (n : Negotiation) : Bool :=
  match lastOfferMessage msgs n.id with
  | some m => n.last_offer_amount == m.offer_amount
  | none => true

/-- Spec invariant (§3): `last_offer_amount` always equals the `offer_amount`
of the most recent message of type offer/counter_offer in the thread. -/
def lastOfferInvB (db : DB) : Bool := db.negotiations.all (negMsgOk db.messages)

/-- One invocation of a mutating Tetsy endpoint, with the clock value(s) the
handler reads. -/
inductive Op where
  | start (nowNeg nowMsg : Nat) (request : StartNegotiationRequest)
  | sendMsg (now : Nat) (negotiation_id : String) (request : SendMessageRequest)
  | buyerAccept (now : Nat) (negotiation_id : String)
  | sellerRespond (now : Nat) (seller_id negotiation_id : String)
      (response : SellerOfferResponse)
  | sellerMsg (now : Nat) (seller_id negotiation_id : String)
      (request : SellerMessageRequest)
  | sellerAccept (now : Nat) (seller_id negotiation_id : String)
  | sellerReject (now : Nat) (seller_id negotiation_id : String)
deriving DecidableEq, Repr

/-- The database state persisted after one endpoint invocation. -/
def applyOp (db : DB) : Op → DB
  | .start nowNeg nowMsg request => (start_negotiation db nowNeg nowMsg request).1
  | .sendMsg now nid request => (send_message db now nid request).1
  | .buyerAccept now nid => (buyer_accept_negotiation db now nid).1
  | .sellerRespond now sid nid response => (seller_respond_to_offer db now sid nid response).1
  | .sellerMsg now sid nid request => (seller_send_message db now sid nid request).1
  | .sellerAccept now sid nid => (seller_accept_offer db now sid nid).1
  | .sellerReject now sid nid => (seller_reject_offer db now sid nid).1

/-- The database after a sequence of endpoint invocations. -/
def applyOps (db : DB) (ops : List Op) : DB := ops.foldl applyOp db

/-- Operations whose offer-bearing messages enter only through the paths
that also update `last_offer_amount`: a `counter_offer`-typed message
through the buyer message endpoint, or an `offer`/`counter_offer`-typed
message through the seller message endpoint, are excluded (those paths
insert the message without touching the negotiation row). -/
def opSafe : Op → Bool
  | .sendMsg _ _ request => !(request.type == "counter_offer")
  | .sellerMsg _ _ _ request => !(request.type == "offer") && !(request.type == "counter_offer")
  | _ => true

/-- A sample negotiation row. -/
def negSample (nid status : String) (amt : Option ℚ) : Negotiation :=
  { id := nid
    product_id := "prod-1"
    buyer_id := BUYER_ID
    seller_id := "Tetsy"
    product_title := "Vintage Lamp"
    product_image := none
    status := status
    last_offer_amount := amt
    created_at := 0
    updated_at := 0
    archived := false }

/-- A sample message row. -/
def msgSample (mid nid t : String) (amt : Option ℚ) (ts : Nat) : Message :=
  { id := mid
    negotiation_id := nid
    sender_id := BUYER_ID
    sender_type := "buyer"
    content := "hello"
    type := t
    offer_amount := amt
    timestamp := ts
    read_by_seller := false
    read_by_buyer := false }

/-- A database holding one pending negotiation with its initial offer. -/
def dbPending : DB :=
  ⟨[negSample "neg-1" "pending" (some 100)], [msgSample "msg-1" "neg-1" "offer" (some 100) 1]⟩

/-- A database holding one rejected (terminal) negotiation. -/
def dbRejected : DB :=
  ⟨[negSample "neg-1" "rejected" (some 100)], [msgSample "msg-1" "neg-1" "offer" (some 100) 1]⟩

/-- The empty database. -/
def dbEmpty : DB := ⟨[], []⟩

/-- A buyer follow-up offer request. -/
def sendOfferReq : SendMessageRequest :=
  { negotiation_id := "neg-1", content := "would you take 80?",
    type := "offer", offer_amount := some 80 }

end Tetsy

namespace Policy

/-- A seller decision on a buyer offer. -/
inductive Decision where
  | accept
  | counter (amount : ℚ)
deriving DecidableEq, Repr

/-- Modelled from the spec: the repository has no executable seller policy
function — the decision is taken by the LLM following the natural-language
rule in `root_agent`'s instruction and the `respond_to_negotiation` docstring
(src/specialty_agents/tetsy_agent/agent.py): accept when the buyer offer is
at least 85% of the asking price, otherwise counter at 90% of the asking
price.  This definition follows the spec's §4.2 rule
`ratio >= 0.85 -> accept, else counter at 0.90 * asking_price`. -/
def decideOffer (asking_price offer_amount : ℚ) : Decision :=
  if (85 : ℚ)/100 ≤ offer_amount / asking_price then .accept
  else .counter ((90 : ℚ)/100 * asking_price)

end Policy

namespace Bridge

/-- An A2A content part (the payload under `Part.root`): `TextPart`,
`FilePart` with `FileWithUri`, or `FilePart` with `FileWithBytes`. -/
inductive A2APart where
  | text (text : String)
  | fileUri (uri : String) (mime_type : Option String)
  | fileBytes (data : List Nat) (mime_type : Option String)
deriving DecidableEq, Repr

/-- `google.genai.types.FileData`. -/
structure FileData where
  file_uri : String
  mime_type : Option String
deriving DecidableEq, Repr

/-- `google.genai.types.Blob`. -/
structure Blob where
  data : List Nat
  mime_type : Option String
deriving DecidableEq, Repr

/-- `google.genai.types.Part`: at most one of the three content fields set. -/
structure GenaiPart where
  text : Option String := none
  file_data : Option FileData := none
  inline_data : Option Blob := none
deriving DecidableEq, Repr

/-- `ValueError` raised for an unsupported part shape. -/
inductive ConvError where
  | unsupportedPart
deriving DecidableEq, Repr

/-- `convert_a2a_part_to_genai` (host_agent_executor.py): text maps to
`types.Part(text=...)`, a URI file to `file_data`, a bytes file to
`inline_data`. -/
def convert_a2a_part_to_genai : A2APart → GenaiPart
  | .text t => { text := some t }
  | .fileUri uri mime => { file_data := some ⟨uri, mime⟩ }
  | .fileBytes data mime => { inline_data := some ⟨data, mime⟩ }

/-- Python truthiness of `part.text` (`None` and `""` are falsy; the
`FileData` / `Blob` pydantic objects are truthy whenever present). -/
def textTruthy : Option String → Bool
  | none => false
  | some s => !(s == "")

/-- `convert_genai_part_to_a2a` (host_agent_executor.py): branches on
`if part.text: / if part.file_data: / if part.inline_data:` and raises
`ValueError` when none of them is truthy. -/
def convert_genai_part_to_a2a (part : GenaiPart) : Except ConvError A2APart :=
  if textTruthy part.text then .ok (.text (part.text.getD ""))
  else
    match part.file_data with
    | some fd => .ok (.fileUri fd.file_uri fd.mime_type)
    | none =>
      match part.inline_data with
      | some b => .ok (.fileBytes b.data b.mime_type)
      | none => .error .unsupportedPart

/-- Task status/artifact events published through the `TaskUpdater`. -/
inductive TaskEvent where
  | submitted
  | working (message : Option (List A2APart))
  | artifact (parts : List A2APart)
  | completed
  | failed (message : String)
deriving DecidableEq, Repr

/-- One event yielded by `runner.run_async`: whether it is a final response,
its content parts, and the function calls it carries. -/
structure AdkEvent where
  final : Bool
  parts : List GenaiPart
  functionCalls : List String
deriving DecidableEq, Repr

/-- The truthiness filter `if (part.text or part.file_data or part.inline_data)`
applied to event parts before conversion. -/
def genaiPartTruthy (p : GenaiPart) : Bool :=
  textTruthy p.text || p.file_data.isSome || p.inline_data.isSome

/-- Convert the truthy parts of an event, propagating the first `ValueError`
(raised by `convert_genai_part_to_a2a`) as an escaping exception. -/
def convertParts : List GenaiPart → Except ConvError (List A2APart)
  | [] => .ok []
  | p :: ps =>
    if genaiPartTruthy p then
      match convert_genai_part_to_a2a p with
      | .error e => .error e
      | .ok a =>
        match convertParts ps with
        | .error e => .error e
        | .ok rest => .ok (a :: rest)
    else convertParts ps

/-- Outcome of the underlying ADK runtime for one request: the events the
stream yields, then optionally an exception raised by the stream (the
internal failure of the claim). -/
structure RunnerOutcome where
  events : List AdkEvent
  streamError : Option String := none
deriving DecidableEq, Repr

/-- The event loop of `HostAgentExecutor._process_request` over the runner
stream (traceability disabled, i.e. the `response_trace = None` path): a
final response emits the artifact and a terminal `completed` and stops; an
event without function calls emits a `working` update carrying the parts; an
event with function calls emits nothing (trace bookkeeping only).  The second
component is an exception escaping the handler, which has no `except` clause. -/
def hostProcessEvents : List AdkEvent → Option String → List TaskEvent × Option String
  | [], streamError => ([], streamError)
  | e :: rest, streamError =>
    if e.final then
      match convertParts e.parts with
      | .error _ => ([], some "ValueError: unsupported part type")
      | .ok parts => ([.artifact parts, .completed], none)
    else if e.functionCalls.isEmpty then
      match convertParts e.parts with
      | .error _ => ([], some "ValueError: unsupported part type")
      | .ok parts =>
        let (evs, esc) := hostProcessEvents rest streamError
        (.working (some parts) :: evs, esc)
    else
      hostProcessEvents rest streamError

/-- `HostAgentExecutor.execute`: emits `submitted` for a new task, then
`working`, then processes the runner stream.  There is no try/except around
`_process_request`, so any internal failure escapes (second component). -/
def hostExecute (isNewTask : Bool) (runner : RunnerOutcome) :
    List TaskEvent × Option String :=
  let pre : List TaskEvent := (if isNewTask then [.submitted] else []) ++ [.working none]
  let (evs, esc) := hostProcessEvents runner.events runner.streamError
  (pre ++ evs, esc)

/-- `TetsyAgentExecutor.execute`: the whole body runs inside
`try: ... except Exception as e: updater.fail(f"Tetsy processing failed: {str(e)}")`.
The request handling between the `working` update and the artifact (query
parsing, tool call) is abstracted as `body`: either the response text or the
exception it raises. -/
def tetsyExecute (isNewTask : Bool) (body : Except String String) :
    List TaskEvent × Option String :=
  let pre : List TaskEvent := (if isNewTask then [.submitted] else []) ++ [.working none]
  match body with
  | .ok response_text => (pre ++ [.artifact [.text response_text], .completed], none)
  | .error e => (pre ++ [.failed ("Tetsy processing failed: " ++ e)], none)

/-- A session object created by the session service; `creator` records which
caller's `create_session` call produced it, so distinct creations are
distinguishable objects. -/
structure Session where
  id : String
  creator : Nat
deriving DecidableEq, Repr

/-- State of the injected session service: the keyed session map and a count
of `create_session` calls, plus the local state of each of two concurrent
callers running `_upsert_session`. -/
structure UpsertState where
  store : List (String × Session)
  creations : Nat
  caller0 : Option (Option Session) × Option Session
  caller1 : Option (Option Session) × Option Session
deriving DecidableEq, Repr

/-- `session_service.get_session`: lookup by id. -/
def getSession (store : List (String × Session)) (session_id : String) :
    Option Session :=
  (store.find? (fun kv => kv.1 == session_id)).map (·.2)

/-- `session_service.create_session`: builds a fresh session object and
stores it under the id, replacing any entry already there (dict assignment). -/
def createSession (store : List (String × Session)) (session_id : String)
    (creator : Nat) : Session × List (String × Session) :=
  let s : Session := ⟨session_id, creator⟩
  (s, (session_id, s) :: store.filter (fun kv => !(kv.1 == session_id)))

/-- Advance one caller of `_upsert_session` by one atomic segment.  The body
is `session = await get_session(...); if session is None: session = await
create_session(...)`: the two service calls are separate suspension points
of the cooperative scheduler, so the other caller may run between them. -/
def upsertStep (session_id : String) (i : Nat) (st : UpsertState) : UpsertState :=
  let caller := if i == 0 then st.caller0 else st.caller1
  match caller with
  | (none, _) =>
      -- first segment: the get_session call completes
      let got := getSession st.store session_id
      let newCaller := (some got, none)
      if i == 0 then { st with caller0 := newCaller } else { st with caller1 := newCaller }
  | (some none, none) =>
      -- second segment: got None, so the create_session call runs
      let (s, store') := createSession st.store session_id i
      let newCaller := (some (none : Option Session), some s)
      if i == 0 then
        { st with store := store', creations := st.creations + 1, caller0 := newCaller }
      else
        { st with store := store', creations := st.creations + 1, caller1 := newCaller }
  | (some (some s), none) =>
      -- second segment: the get returned a session, upsert returns it
      let newCaller := (some (some s), some s)
      if i == 0 then { st with caller0 := newCaller } else { st with caller1 := newCaller }
  | (some _, some _) => st

/-- Run the two concurrent upserts under a given interleaving schedule. -/
def runUpserts (session_id : String) (sched : List Nat) (st : UpsertState) :
    UpsertState :=
  sched.foldl (fun s i => upsertStep session_id i s) st

/-- Initial state: a given store, no creations counted, both callers at the
start of `_upsert_session`. -/
def initUpsert (store : List (String × Session)) : UpsertState :=
  ⟨store, 0, (none, none), (none, none)⟩

end Bridge

namespace Bridge

lemma getSession_cons_self (session_id : String) (s : Session)
    (l : List (String × Session)) :
    getSession ((session_id, s) :: l) session_id = some s := by
  simp [getSession, List.find?]

end Bridge

/-- Decidable equality for handler outcomes, so concrete runs can be checked
by `decide`. -/
instance {e a : Type} [DecidableEq e] [DecidableEq a] : DecidableEq (Except e a) :=
  fun x y =>
    match x, y with
    | .error u, .error v =>
      if h : u = v then .isTrue (by rw [h]) else .isFalse (by intro hc; cases hc; exact h rfl)
    | .ok u, .ok v =>
      if h : u = v then .isTrue (by rw [h]) else .isFalse (by intro hc; cases hc; exact h rfl)
    | .error _, .ok _ => .isFalse (by intro hc; cases hc)
    | .ok _, .error _ => .isFalse (by intro hc; cases hc)

namespace Tetsy

lemma lastOfferMessage_append (msgs : List Message) (m : Message) (nid : String) :
    lastOfferMessage (msgs ++ [m]) nid =
      if m.negotiation_id == nid && isOfferType m.type then some m
      else lastOfferMessage msgs nid := by
  unfold lastOfferMessage
  rw [List.filter_append]
  by_cases h : (m.negotiation_id == nid && isOfferType m.type) = true
  · simp [h, List.getLast?_concat]
  · simp [List.filter_cons, h]

lemma negMsgOk_append_of_nomatch (msgs : List Message) (m : Message)
    (n : Negotiation) (h : (m.negotiation_id == n.id && isOfferType m.type) = false) :
    negMsgOk (msgs ++ [m]) n = negMsgOk msgs n := by
  unfold negMsgOk
  rw [lastOfferMessage_append, if_neg (by simp [h])]

lemma negMsgOk_append_of_match (msgs : List Message) (m : Message)
    (n : Negotiation) (h : (m.negotiation_id == n.id && isOfferType m.type) = true) :
    negMsgOk (msgs ++ [m]) n = (n.last_offer_amount == m.offer_amount) := by
  unfold negMsgOk
  rw [lastOfferMessage_append, if_pos h]

lemma negMsgOk_congr (msgs : List Message) (a b : Negotiation)
    (hid : a.id = b.id) (hlast : a.last_offer_amount = b.last_offer_amount) :
    negMsgOk msgs a = negMsgOk msgs b := by
  unfold negMsgOk
  rw [hid, hlast]

/-- Appending a message that carries no offer preserves the invariant. -/
lemma lastOfferInvB_insert_plain (negs : List Negotiation) (msgs : List Message)
    (m : Message) (h : isOfferType m.type = false)
    (hinv : lastOfferInvB ⟨negs, msgs⟩ = true) :
    lastOfferInvB ⟨negs, msgs ++ [m]⟩ = true := by
  simp only [lastOfferInvB, List.all_eq_true] at *
  intro n hn
  rw [negMsgOk_append_of_nomatch _ _ _ (by simp [h])]
  exact hinv n hn

/-- A negotiation update that changes neither the id nor the
`last_offer_amount` of any row preserves the invariant. -/
lemma lastOfferInvB_update_status (negs : List Negotiation) (msgs : List Message)
    (pred : Negotiation → Bool) (f : Negotiation → Negotiation)
    (hid : ∀ n, (f n).id = n.id)
    (hlast : ∀ n, (f n).last_offer_amount = n.last_offer_amount)
    (hinv : lastOfferInvB ⟨negs, msgs⟩ = true) :
    lastOfferInvB ⟨negs.map (fun n => if pred n then f n else n), msgs⟩ = true := by
  simp only [lastOfferInvB, List.all_eq_true] at *
  intro n hn
  simp only [List.mem_map] at hn
  obtain ⟨n0, hn0, rfl⟩ := hn
  by_cases hp : pred n0 = true
  · simp only [hp, if_true]
    rw [negMsgOk_congr msgs (f n0) n0 (hid n0) (hlast n0)]
    exact hinv n0 hn0
  · simp only [hp, if_false]
    exact hinv n0 hn0

/-- Appending an offer-bearing message for one negotiation while rewriting
the rows of that negotiation so that their `last_offer_amount` equals the
message amount preserves the invariant. -/
lemma lastOfferInvB_insert_offer_sync (negs : List Negotiation) (msgs : List Message)
    (m : Message) (f : Negotiation → Negotiation)
    (hoff : isOfferType m.type = true)
    (hid : ∀ n, (f n).id = n.id)
    (hlast : ∀ n, (f n).last_offer_amount = m.offer_amount)
    (hinv : lastOfferInvB ⟨negs, msgs⟩ = true) :
    lastOfferInvB ⟨negs.map (fun n => if n.id == m.negotiation_id then f n else n),
                   msgs ++ [m]⟩ = true := by
  simp only [lastOfferInvB, List.all_eq_true] at *
  intro n hn
  simp only [List.mem_map] at hn
  obtain ⟨n0, hn0, rfl⟩ := hn
  by_cases hp : (n0.id == m.negotiation_id) = true
  · simp only [hp, if_true]
    rw [negMsgOk_append_of_match]
    · simp [hlast n0]
    · rw [hid n0]
      simp only [beq_iff_eq] at hp ⊢
      simp [hp, hoff]
  · simp only [hp, if_false]
    rw [negMsgOk_append_of_nomatch]
    · exact hinv n0 hn0
    · simp only [beq_iff_eq] at hp
      have hne : m.negotiation_id ≠ n0.id := fun h => hp h.symm
      simp [hoff, hne]

/-- Inserting a fresh negotiation row together with an offer-bearing message
whose amount matches the row preserves the invariant. -/
lemma lastOfferInvB_insert_new (negs : List Negotiation) (msgs : List Message)
    (nrow : Negotiation) (m : Message)
    (hoff : isOfferType m.type = true)
    (hid : m.negotiation_id = nrow.id)
    (hlast : nrow.last_offer_amount = m.offer_amount)
    (hfresh : ∀ n0 ∈ negs, (n0.id == nrow.id) = false)
    (hinv : lastOfferInvB ⟨negs, msgs⟩ = true) :
    lastOfferInvB ⟨negs ++ [nrow], msgs ++ [m]⟩ = true := by
  simp only [lastOfferInvB, List.all_eq_true] at *
  intro n hn
  rcases List.mem_append.mp hn with hn0 | hn1
  · rw [negMsgOk_append_of_nomatch]
    · exact hinv n hn0
    · have hf := hfresh n hn0
      rw [beq_eq_false_iff_ne] at hf
      have hne : m.negotiation_id ≠ n.id := by
        rw [hid]
        exact fun h => hf h.symm
      simp [hoff, hne]
  · have hn1 : n = nrow := by simpa using hn1
    subst hn1
    rw [negMsgOk_append_of_match]
    · simp [hlast]
    · simp [beq_iff_eq, hid, hoff]

lemma insertMessage_ok {db : DB} {m : Message} {db1 : DB}
    (h : insertMessage db m = .ok db1) :
    db1 = ⟨db.negotiations, db.messages ++ [m]⟩ ∧ msgTypeOk m.type = true := by
  unfold insertMessage at h
  split at h
  · exact absurd h (by simp)
  · split at h
    · exact absurd h (by simp)
    · split at h
      · exact absurd h (by simp)
      · refine ⟨by injection h with h2; exact h2.symm, ?_⟩
        rename_i _ h3 _
        simpa using h3

lemma insertNegotiation_ok {db : DB} {n : Negotiation} {db1 : DB}
    (h : insertNegotiation db n = .ok db1) :
    db1 = ⟨db.negotiations ++ [n], db.messages⟩
      ∧ ∀ x ∈ db.negotiations, (x.id == n.id) = false := by
  unfold insertNegotiation at h
  split at h
  · exact absurd h (by simp)
  · split at h
    · exact absurd h (by simp)
    · refine ⟨by injection h with h2; exact h2.symm, ?_⟩
      rename_i h1 _
      simpa [List.any_eq_true] using h1

lemma updateNegotiations_ok {db : DB} {pred : Negotiation → Bool}
    {f : Negotiation → Negotiation} {db1 : DB}
    (h : updateNegotiations db pred f = .ok db1) :
    db1 = ⟨db.negotiations.map (fun n => if pred n then f n else n), db.messages⟩ := by
  unfold updateNegotiations at h
  split at h
  · exact absurd h (by simp)
  · injection h with h2
    exact h2.symm

lemma map_ite_of_none {α : Type} (l : List α) (p : α → Bool) (f : α → α)
    (h : ∀ a ∈ l, p a = false) : l.map (fun a => if p a then f a else a) = l := by
  induction l with
  | nil => rfl
  | cons a t ih =>
    have ha : p a = false := h a (by simp)
    simp [ha, ih (fun x hx => h x (by simp [hx]))]

/-- One endpoint invocation preserves the `last_offer_amount` invariant,
provided offer-bearing messages do not enter through the two endpoints that
skip the negotiation update. -/
lemma applyOp_preserves (db : DB) (op : Op) (hsafe : opSafe op = true)
    (hinv : lastOfferInvB db = true) : lastOfferInvB (applyOp db op) = true := by
  cases op with
  | start nowNeg nowMsg request =>
    simp only [applyOp, start_negotiation]
    split
    · exact hinv
    next db1 hn =>
      obtain ⟨rfl, hfresh⟩ := insertNegotiation_ok hn
      split
      · exact hinv
      next db2 hm =>
        obtain ⟨rfl, _⟩ := insertMessage_ok hm
        exact lastOfferInvB_insert_new db.negotiations db.messages
          (mkNegotiation nowNeg request) (mkInitialMsg nowMsg nowNeg request)
          (by simp [mkInitialMsg, isOfferType])
          (by simp [mkInitialMsg, mkNegotiation])
          (by simp [mkInitialMsg, mkNegotiation]) hfresh hinv
  | sendMsg now nid request =>
    simp only [applyOp, send_message]
    split
    · exact hinv
    · split
      · exact hinv
      next db1 hm =>
        obtain ⟨rfl, _⟩ := insertMessage_ok hm
        split
        next hoff =>
          split
          · exact hinv
          next db2 hu =>
            have h2 := updateNegotiations_ok hu
            subst h2
            refine lastOfferInvB_insert_offer_sync db.negotiations db.messages
              (mkBuyerMsg now nid request) _ ?_ (fun _ => rfl)
              (fun _ => by simp [mkBuyerMsg]) hinv
            simp only [beq_iff_eq] at hoff
            simp [mkBuyerMsg, isOfferType, hoff]
        next hoff =>
          refine lastOfferInvB_insert_plain db.negotiations db.messages _ ?_ hinv
          simp only [opSafe] at hsafe
          simp at hoff hsafe
          simp [mkBuyerMsg, isOfferType, hoff, hsafe]
  | buyerAccept now nid =>
    simp only [applyOp, buyer_accept_negotiation]
    split
    · exact hinv
    next db1 hu =>
      have h1 := updateNegotiations_ok hu
      subst h1
      exact lastOfferInvB_update_status db.negotiations db.messages _ _
        (fun _ => rfl) (fun _ => rfl) hinv
  | sellerRespond now sid nid response =>
    simp only [applyOp, seller_respond_to_offer]
    split
    · exact hinv
    · split
      · exact hinv
      next db1 hu =>
        have h1 := updateNegotiations_ok hu
        subst h1
        split
        next hact =>
          split
          · exact hinv
          next content hc =>
            split
            · exact hinv
            next db2 hm =>
              obtain ⟨rfl, _⟩ := insertMessage_ok hm
              split
              · exact hinv
              next db3 hu2 =>
                have h3 := updateNegotiations_ok hu2
                subst h3
                rw [List.map_map]
                have hcomp :
                    ((fun n : Negotiation => if n.id == nid then
                        { n with last_offer_amount := response.counter_amount } else n) ∘
                      (fun n : Negotiation => if n.id == nid then
                        { n with
                          status := respondStatus response.action,
                          updated_at := now } else n))
                    = fun n : Negotiation => if n.id == nid then
                        { n with
                          status := respondStatus response.action,
                          updated_at := now,
                          last_offer_amount := response.counter_amount } else n := by
                  funext n
                  by_cases hp : (n.id == nid) = true
                  · simp [Function.comp, hp]
                  · simp [Function.comp, hp]
                rw [hcomp]
                exact lastOfferInvB_insert_offer_sync db.negotiations db.messages
                  (mkCounterMsg now nid sid content response.counter_amount) _
                  (by simp [mkCounterMsg, isOfferType]) (fun _ => rfl)
                  (fun _ => by simp [mkCounterMsg]) hinv
        next hact =>
          exact lastOfferInvB_update_status db.negotiations db.messages _ _
            (fun _ => rfl) (fun _ => rfl) hinv
  | sellerMsg now sid nid request =>
    simp only [applyOp, seller_send_message]
    split
    · exact hinv
    next db1 hm =>
      obtain ⟨rfl, _⟩ := insertMessage_ok hm
      refine lastOfferInvB_insert_plain db.negotiations db.messages _ ?_ hinv
      simp only [opSafe] at hsafe
      simp at hsafe
      simp [mkSellerMsg, isOfferType, hsafe.1, hsafe.2]
  | sellerAccept now sid nid =>
    simp only [applyOp, seller_accept_offer]
    split
    · exact hinv
    next db1 hu =>
      have h1 := updateNegotiations_ok hu
      subst h1
      exact lastOfferInvB_update_status db.negotiations db.messages _ _
        (fun _ => rfl) (fun _ => rfl) hinv
  | sellerReject now sid nid =>
    simp only [applyOp, seller_reject_offer]
    split
    · exact hinv
    next db1 hu =>
      have h1 := updateNegotiations_ok hu
      subst h1
      exact lastOfferInvB_update_status db.negotiations db.messages _ _
        (fun _ => rfl) (fun _ => rfl) hinv

/-- Exhaustive description of the outcomes of `send_message`: an error with
the database unchanged, a plain insert, or an insert plus the negotiation
update (exactly when the declared type is `"offer"`). -/
lemma send_message_cases (db : DB) (now : Nat) (nid : String)
    (req : SendMessageRequest) :
    (∃ e, send_message db now nid req = (db, .error e))
    ∨ (send_message db now nid req
        = (⟨db.negotiations, db.messages ++ [mkBuyerMsg now nid req]⟩, .ok ())
        ∧ req.type ≠ "offer")
    ∨ (send_message db now nid req
        = (⟨db.negotiations.map (fun n => if n.id == nid then
              { n with last_offer_amount := req.offer_amount, status := "pending" } else n),
            db.messages ++ [mkBuyerMsg now nid req]⟩, .ok ())
        ∧ req.type = "offer") := by
  unfold send_message
  split
  · exact .inl ⟨_, rfl⟩
  · split
    · exact .inl ⟨_, rfl⟩
    next db1 hm =>
      obtain ⟨rfl, _⟩ := insertMessage_ok hm
      split
      next hoff =>
        split
        · exact .inl ⟨_, rfl⟩
        next db2 hu =>
          have h2 := updateNegotiations_ok hu
          subst h2
          exact .inr (.inr ⟨rfl, by simpa [beq_iff_eq] using hoff⟩)
      next hoff =>
        exact .inr (.inl ⟨rfl, by simpa [beq_iff_eq] using hoff⟩)

/-- Exhaustive description of the outcomes of `seller_respond_to_offer`: an
error with the database unchanged, a status-only update (action other than
`"counter"`), or the counter path (status update, counter_offer message,
`last_offer_amount` update). -/
lemma seller_respond_cases (db : DB) (now : Nat) (sid nid : String)
    (resp : SellerOfferResponse) :
    (∃ e, seller_respond_to_offer db now sid nid resp = (db, .error e))
    ∨ (seller_respond_to_offer db now sid nid resp
        = (⟨db.negotiations.map (fun n => if n.id == nid then
              { n with status := respondStatus resp.action,
                       updated_at := now } else n), db.messages⟩, .ok ())
        ∧ resp.action ≠ "counter")
    ∨ (∃ content,
        seller_respond_to_offer db now sid nid resp
        = (⟨db.negotiations.map (fun n => if n.id == nid then
              { n with status := respondStatus resp.action,
                       updated_at := now,
                       last_offer_amount := resp.counter_amount } else n),
            db.messages ++ [mkCounterMsg now nid sid content resp.counter_amount]⟩, .ok ())
        ∧ resp.action = "counter") := by
  unfold seller_respond_to_offer
  split
  · exact .inl ⟨_, rfl⟩
  · split
    · exact .inl ⟨_, rfl⟩
    next db1 hu =>
      have h1 := updateNegotiations_ok hu
      subst h1
      split
      next hact =>
        split
        · exact .inl ⟨_, rfl⟩
        next content hc =>
          split
          · exact .inl ⟨_, rfl⟩
          next db2 hm =>
            obtain ⟨rfl, _⟩ := insertMessage_ok hm
            split
            · exact .inl ⟨_, rfl⟩
            next db3 hu2 =>
              have h3 := updateNegotiations_ok hu2
              subst h3
              refine .inr (.inr ⟨content, ?_, by simpa [beq_iff_eq] using hact⟩)
              rw [List.map_map]
              have hcomp :
                  ((fun n : Negotiation => if n.id == nid then
                      { n with last_offer_amount := resp.counter_amount } else n) ∘
                    (fun n : Negotiation => if n.id == nid then
                      { n with
                        status := respondStatus resp.action,
                        updated_at := now } else n))
                  = fun n : Negotiation => if n.id == nid then
                      { n with
                        status := respondStatus resp.action,
                        updated_at := now,
                        last_offer_amount := resp.counter_amount } else n := by
                funext n
                by_cases hp : (n.id == nid) = true
                · simp [Function.comp, hp]
                · simp [Function.comp, hp]
              rw [hcomp]
      next hact =>
        exact .inr (.inl ⟨rfl, by simpa [beq_iff_eq] using hact⟩)

lemma send_message_ok_messages {db db1 : DB} {now : Nat} {nid : String}
    {req : SendMessageRequest}
    (h : send_message db now nid req = (db1, .ok ())) :
    db1.messages = db.messages ++ [mkBuyerMsg now nid req] := by
  rcases send_message_cases db now nid req with ⟨e, hc⟩ | ⟨hc, _⟩ | ⟨hc, _⟩ <;>
    rw [hc] at h <;> simp only [Prod.mk.injEq] at h
  · exact absurd h.2 (by simp)
  · rw [← h.1]
  · rw [← h.1]

lemma start_negotiation_ok_negs {db dbs : DB} {nowNeg nowMsg : Nat}
    {request : StartNegotiationRequest} {rid : String}
    (h : start_negotiation db nowNeg nowMsg request = (dbs, .ok rid)) :
    dbs.negotiations = db.negotiations ++ [mkNegotiation nowNeg request] := by
  unfold start_negotiation at h
  split at h
  · simp only [Prod.mk.injEq] at h
    exact absurd h.2 (by simp)
  next db1 hn =>
    obtain ⟨rfl, _⟩ := insertNegotiation_ok hn
    split at h
    · simp only [Prod.mk.injEq] at h
      exact absurd h.2 (by simp)
    next db2 hm =>
      obtain ⟨rfl, _⟩ := insertMessage_ok hm
      simp only [Prod.mk.injEq] at h
      rw [← h.1]

/-- An UPDATE whose WHERE clause matches no row succeeds and leaves the
table unchanged (zero rows updated, no constraint evaluated). -/
lemma updateNegotiations_no_match (db : DB) (pred : Negotiation → Bool)
    (f : Negotiation → Negotiation) (h : ∀ n ∈ db.negotiations, pred n = false) :
    updateNegotiations db pred f = .ok db := by
  unfold updateNegotiations
  rw [if_neg]
  · rw [map_ite_of_none _ _ _ h]
  · intro hex
    rw [List.any_eq_true] at hex
    obtain ⟨n, hn, hcond⟩ := hex
    rw [h n hn] at hcond
    simp at hcond

end Tetsy

section Claims

open Tetsy Bridge Policy

/-- C1: the claim states that once a negotiation is accepted or rejected,
every further mutating operation fails with InvalidStateError and leaves
status, last_offer_amount and the message list unchanged.  The code enforces
no such thing: on a rejected negotiation, the buyer accept endpoint reports
success and rewrites the status to accepted, and a buyer offer reports
success, appends a message and resets the status to pending with a new
last_offer_amount. -/
theorem C1_terminal_states_not_enforced :
    (buyer_accept_negotiation dbRejected 5 "neg-1").2 = .ok ()
    ∧ ((buyer_accept_negotiation dbRejected 5 "neg-1").1.negotiations.map
        (fun n => n.status)) = ["accepted"]
    ∧ (send_message dbRejected 6 "neg-1" sendOfferReq).2 = .ok ()
    ∧ ((send_message dbRejected 6 "neg-1" sendOfferReq).1.negotiations.map
        (fun n => (n.status, n.last_offer_amount))) = [("pending", some 80)]
    ∧ (send_message dbRejected 6 "neg-1" sendOfferReq).1.messages.length = 2 := by
  refine ⟨by decide, by decide, by decide, by decide, by decide⟩

/-- C2: on a pending negotiation the seller owns, responding with
action accept or reject writes the raw strings `'accept'` / `'reject'` into
the status column, which the table CHECK constraint (allowing only
`'accepted'` / `'rejected'`) refuses: the request fails with an
IntegrityError-backed 500 and nothing is persisted, contradicting the claim
that these actions set the terminal statuses.  The counter branch behaves as
claimed (modulo the status spelling `'counter'`): status `'counter'`,
`last_offer_amount` set to the counter amount, exactly one new counter_offer
message carrying that amount. -/
theorem C2_seller_respond_behavior :
    seller_respond_to_offer dbPending 7 "Tetsy" "neg-1"
      { negotiation_id := "neg-1", seller_id := "Tetsy", action := "accept" }
        = (dbPending, .error .integrity)
    ∧ seller_respond_to_offer dbPending 7 "Tetsy" "neg-1"
      { negotiation_id := "neg-1", seller_id := "Tetsy", action := "reject" }
        = (dbPending, .error .integrity)
    ∧ (seller_respond_to_offer dbPending 7 "Tetsy" "neg-1"
        { negotiation_id := "neg-1", seller_id := "Tetsy", action := "counter",
          counter_amount := some 90, message := some "deal" }).2 = .ok ()
    ∧ ((seller_respond_to_offer dbPending 7 "Tetsy" "neg-1"
        { negotiation_id := "neg-1", seller_id := "Tetsy", action := "counter",
          counter_amount := some 90, message := some "deal" }).1.negotiations.map
        (fun n => (n.status, n.last_offer_amount))) = [("counter", some 90)]
    ∧ ((seller_respond_to_offer dbPending 7 "Tetsy" "neg-1"
        { negotiation_id := "neg-1", seller_id := "Tetsy", action := "counter",
          counter_amount := some 90, message := some "deal" }).1.messages.map
        (fun m => (m.type, m.offer_amount)))
      = [("offer", some 100), ("counter_offer", some 90)] := by
  refine ⟨by decide, by decide, by decide, by decide, by decide⟩

/-- C3 (counterexample): a buyer message declared with type counter_offer
and an offer amount is appended to the thread, but `last_offer_amount` is
not updated (only type `"offer"` triggers the update), so right after this
append the negotiation no longer satisfies the claimed invariant. -/
theorem C3_counterexample :
    lastOfferInvB dbPending = true
    ∧ (send_message dbPending 5 "neg-1"
        { negotiation_id := "neg-1", content := "how about 50",
          type := "counter_offer", offer_amount := some 50 }).2 = .ok ()
    ∧ lastOfferInvB (send_message dbPending 5 "neg-1"
        { negotiation_id := "neg-1", content := "how about 50",
          type := "counter_offer", offer_amount := some 50 }).1 = false := by
  refine ⟨by decide, by decide, by decide⟩

/-- C3 (amended): after every sequence of endpoint invocations in which
offer-bearing messages enter only through the paths that also update the
negotiation row (negotiation creation, buyer offers with type `"offer"`,
and the seller counter response), each negotiation's `last_offer_amount`
equals the `offer_amount` of the most recent offer/counter_offer message in
its thread; plain messages leave it unchanged.  The excluded paths (a
counter_offer-typed message through the buyer message endpoint, or an
offer/counter_offer-typed message through the seller message endpoint)
append the message without touching `last_offer_amount`. -/
theorem C3_last_offer_invariant (db : DB) (ops : List Op)
    (hinv : lastOfferInvB db = true)
    (hsafe : ∀ op ∈ ops, opSafe op = true) :
    lastOfferInvB (applyOps db ops) = true := by
  induction ops generalizing db with
  | nil => exact hinv
  | cons op rest ih =>
    exact ih (applyOp db op)
      (applyOp_preserves db op (hsafe op (by simp)) hinv)
      (fun o ho => hsafe o (by simp [ho]))

/-- C3 (witness): the amended invariant theorem applied to a concrete
database and a concrete buyer offer. -/
theorem C3_last_offer_invariant_witness :
    lastOfferInvB (applyOps dbPending [Op.sendMsg 5 "neg-1" sendOfferReq]) = true :=
  C3_last_offer_invariant dbPending [Op.sendMsg 5 "neg-1" sendOfferReq]
    (by decide) (by intro op hop; simp only [List.mem_singleton] at hop; subst hop; decide)

/-- C4: the seller policy rule (modelled from the spec, since the repository
implements it only as LLM prompt text): for every asking_price > 0 and
0 < offer_amount < asking_price, the decision is accept exactly when the
offer is at least 85% of the asking price, and otherwise it is a counter at
90% of the asking price, which is at least the offer and at least 80% of
the asking price.  Totality and determinism hold by construction: decideOffer
is a total function of its two arguments. -/
theorem C4_policy_decide (a o : ℚ) (ha : 0 < a) (ho : 0 < o) (hlt : o < a) :
    (decideOffer a o = Decision.accept ↔ (85 : ℚ)/100 ≤ o / a)
    ∧ (o / a < (85 : ℚ)/100 →
        decideOffer a o = Decision.counter ((90 : ℚ)/100 * a)
        ∧ o ≤ (90 : ℚ)/100 * a
        ∧ (80 : ℚ)/100 * a ≤ (90 : ℚ)/100 * a) := by
  constructor
  · unfold decideOffer
    split
    next hc => simp [hc]
    next hc => simp [hc]
  · intro hlt2
    unfold decideOffer
    rw [if_neg (not_le.mpr hlt2)]
    have h1 : o < (85 : ℚ)/100 * a := by
      rw [div_lt_iff₀ ha] at hlt2
      linarith
    exact ⟨rfl, by linarith, by linarith⟩

/-- C4 (witness): the policy theorem at the spec scenario inputs: asking
price 100 with offer 87 is accepted, with offer 70 it is countered at 90. -/
theorem C4_policy_decide_witness :
    decideOffer 100 87 = Decision.accept
    ∧ decideOffer 100 70 = Decision.counter 90 := by
  constructor
  · exact (C4_policy_decide 100 87 (by norm_num) (by norm_num) (by norm_num)).1.mpr
      (by norm_num)
  · have h := ((C4_policy_decide 100 70 (by norm_num) (by norm_num) (by norm_num)).2
      (by norm_num)).1
    norm_num at h
    exact h

/-- C5 (counterexample): the upsert in `_upsert_session` is get-then-create
with a suspension point between the two service calls.  Under the
interleaving in which both callers run their get before either creates,
both observe no session and both call create_session: two session objects
are created, the second caller observes its own creation rather than the
first caller's, and the first caller's session object is no longer the one
stored under the id. -/
theorem C5_counterexample :
    (runUpserts "abc" [0, 1, 0, 1] (initUpsert [])).creations = 2
    ∧ (runUpserts "abc" [0, 1, 0, 1] (initUpsert [])).caller0.2
        = some ⟨"abc", 0⟩
    ∧ (runUpserts "abc" [0, 1, 0, 1] (initUpsert [])).caller1.2
        = some ⟨"abc", 1⟩
    ∧ getSession (runUpserts "abc" [0, 1, 0, 1] (initUpsert [])).store "abc"
        = some ⟨"abc", 1⟩ := by
  refine ⟨by decide, by decide, by decide, by decide⟩

/-- C5 (amended): when the two upserts on a fresh session id do not
interleave (one caller's get and create both complete before the other
caller starts), exactly one session is created and the second caller
observes the session created by the first; the concurrent interleaving of
the claim, however, creates two sessions because the get-then-create pair
is not atomic. -/
theorem C5_serial_upsert (session_id : String) (store : List (String × Session))
    (h : getSession store session_id = none) :
    (runUpserts session_id [0, 0, 1, 1] (initUpsert store)).creations = 1
    ∧ (runUpserts session_id [0, 0, 1, 1] (initUpsert store)).caller0.2
        = some ⟨session_id, 0⟩
    ∧ (runUpserts session_id [0, 0, 1, 1] (initUpsert store)).caller1.2
        = some ⟨session_id, 0⟩ := by
  simp [runUpserts, List.foldl, initUpsert, upsertStep, h, createSession,
    getSession_cons_self]

/-- C5 (witness): the serial upsert theorem on the empty store. -/
theorem C5_serial_upsert_witness :
    (runUpserts "abc" [0, 0, 1, 1] (initUpsert [])).creations = 1 :=
  (C5_serial_upsert "abc" [] (by decide)).1

/-- C6 (counterexample): converting the text part with the empty string to
the runtime representation and back is not the identity: the way back tests
`if part.text:`, the empty string is falsy in Python, and the conversion
falls through to the unsupported-part ValueError. -/
theorem C6_counterexample :
    convert_genai_part_to_a2a (convert_a2a_part_to_genai (A2APart.text ""))
      = .error ConvError.unsupportedPart := by decide

/-- C6 (amended): for every supported content part except a text part whose
text is the empty string, converting to the runtime representation and back
is the identity: non-empty text is preserved verbatim, a file by reference
keeps its URI and media type, and a file by value keeps its bytes
byte-for-byte together with the media type. -/
theorem C6_roundtrip (p : A2APart)
    (h : ∀ s, p = A2APart.text s → s ≠ "") :
    convert_genai_part_to_a2a (convert_a2a_part_to_genai p) = .ok p := by
  cases p with
  | text t =>
    have ht := h t rfl
    simp [convert_a2a_part_to_genai, convert_genai_part_to_a2a, textTruthy, ht]
  | fileUri u m => rfl
  | fileBytes d m => rfl

/-- C6 (witness): the round-trip theorem at concrete parts of all three
shapes. -/
theorem C6_roundtrip_witness :
    convert_genai_part_to_a2a (convert_a2a_part_to_genai (A2APart.text "hello"))
      = .ok (A2APart.text "hello")
    ∧ convert_genai_part_to_a2a
        (convert_a2a_part_to_genai (A2APart.fileBytes [0, 255, 7] (some "image/png")))
      = .ok (A2APart.fileBytes [0, 255, 7] (some "image/png")) := by
  constructor
  · exact C6_roundtrip (A2APart.text "hello")
      (fun s hs => by injection hs with h2; rw [← h2]; decide)
  · exact C6_roundtrip (A2APart.fileBytes [0, 255, 7] (some "image/png"))
      (fun s hs => by cases hs)

/-- C7 (counterexample): `HostAgentExecutor.execute` has no exception
handler: when the runner stream raises before any final response, the task
has received only `submitted` and `working` updates, no failed terminal
status is emitted, and the exception escapes the handler. -/
theorem C7_counterexample :
    hostExecute true ⟨[], some "RuntimeError: boom"⟩
      = ([TaskEvent.submitted, TaskEvent.working none], some "RuntimeError: boom") := by
  decide

/-- C7 (amended): the Tetsy agent executor satisfies the claim: its whole
body runs inside a try/except, so any internal failure is converted into a
single terminal `failed` status update carrying a human-readable message,
and no exception escapes the handler.  The host agent executor does not:
its failures escape with no terminal status (see the counterexample). -/
theorem C7_tetsy_failure_terminal (isNewTask : Bool) (e : String) :
    (tetsyExecute isNewTask (.error e)).2 = none
    ∧ (tetsyExecute isNewTask (.error e)).1.getLast?
        = some (TaskEvent.failed ("Tetsy processing failed: " ++ e)) := by
  cases isNewTask <;> exact ⟨rfl, rfl⟩

/-- C8: every message append is atomic.  For the two appending handlers
(buyer send_message and seller respond), either the request fails and the
persisted database is exactly the original one — the message insert and the
negotiation update roll back together — or it succeeds and then the new
message is appended and, whenever the operation carries an offer, every row
of that negotiation reflects the corresponding status and
`last_offer_amount`; a state with the message persisted but the negotiation
row not updated is never produced. -/
theorem C8_append_atomic (db : DB) (now : Nat) (nid sid : String)
    (req : SendMessageRequest) (resp : SellerOfferResponse) :
    (∀ e, (send_message db now nid req).2 = .error e →
        (send_message db now nid req).1 = db)
    ∧ ((send_message db now nid req).2 = .ok () →
        (send_message db now nid req).1.messages
          = db.messages ++ [mkBuyerMsg now nid req]
        ∧ (req.type = "offer" →
            ∀ n ∈ (send_message db now nid req).1.negotiations,
              n.id = nid → n.last_offer_amount = req.offer_amount ∧ n.status = "pending"))
    ∧ (∀ e, (seller_respond_to_offer db now sid nid resp).2 = .error e →
        (seller_respond_to_offer db now sid nid resp).1 = db)
    ∧ (resp.action = "counter" →
        (seller_respond_to_offer db now sid nid resp).2 = .ok () →
        (∃ content, (seller_respond_to_offer db now sid nid resp).1.messages
            = db.messages ++ [mkCounterMsg now nid sid content resp.counter_amount])
        ∧ ∀ n ∈ (seller_respond_to_offer db now sid nid resp).1.negotiations,
            n.id = nid →
            n.last_offer_amount = resp.counter_amount ∧ n.status = "counter") := by
  refine ⟨?_, ?_, ?_, ?_⟩
  · intro e he
    rcases send_message_cases db now nid req with ⟨e2, hc⟩ | ⟨hc, _⟩ | ⟨hc, _⟩
    · rw [hc]
    · rw [hc] at he
      simp at he
    · rw [hc] at he
      simp at he
  · intro hok
    rcases send_message_cases db now nid req with ⟨e2, hc⟩ | ⟨hc, hne⟩ | ⟨hc, hoff⟩
    · rw [hc] at hok
      simp at hok
    · rw [hc]
      exact ⟨rfl, fun habs => (hne habs).elim⟩
    · rw [hc]
      refine ⟨rfl, fun _ n hn hid => ?_⟩
      simp only [List.mem_map] at hn
      obtain ⟨n0, hn0, rfl⟩ := hn
      by_cases hp : (n0.id == nid) = true
      · simp [hp]
      · rw [if_neg (by simp [hp])] at hid ⊢
        exact absurd hid (by simpa [beq_iff_eq] using hp)
  · intro e he
    rcases seller_respond_cases db now sid nid resp with ⟨e2, hc⟩ | ⟨hc, _⟩ | ⟨c, hc, _⟩
    · rw [hc]
    · rw [hc] at he
      simp at he
    · rw [hc] at he
      simp at he
  · intro hact hok
    rcases seller_respond_cases db now sid nid resp with ⟨e2, hc⟩ | ⟨hc, hne⟩ | ⟨c, hc, _⟩
    · rw [hc] at hok
      simp at hok
    · exact absurd hact hne
    · rw [hc]
      refine ⟨⟨c, rfl⟩, fun n hn hid => ?_⟩
      simp only [List.mem_map] at hn
      obtain ⟨n0, hn0, rfl⟩ := hn
      by_cases hp : (n0.id == nid) = true
      · simp [hp, respondStatus, hact]
      · rw [if_neg (by simp [hp])] at hid ⊢
        exact absurd hid (by simpa [beq_iff_eq] using hp)

/-- C8 (witness): the atomicity theorem at a concrete successful buyer offer
and a concrete failing seller respond (action accept, which hits the CHECK
constraint and leaves the database untouched). -/
theorem C8_append_atomic_witness :
    (send_message dbPending 5 "neg-1" sendOfferReq).1.messages
      = dbPending.messages ++ [mkBuyerMsg 5 "neg-1" sendOfferReq]
    ∧ (seller_respond_to_offer dbPending 7 "Tetsy" "neg-1"
        { negotiation_id := "neg-1", seller_id := "Tetsy", action := "accept" }).1
      = dbPending := by
  constructor
  · exact ((C8_append_atomic dbPending 5 "neg-1" "Tetsy" sendOfferReq
      { negotiation_id := "neg-1", seller_id := "Tetsy", action := "accept" }).2.1
      (by decide)).1
  · exact (C8_append_atomic dbPending 7 "neg-1" "Tetsy" sendOfferReq
      { negotiation_id := "neg-1", seller_id := "Tetsy", action := "accept" }).2.2.1
      ApiError.integrity (by decide)

/-- C9 (counterexample): the claim states that mutating operations on an
unknown negotiation_id fail with NotFoundError.  On the empty database,
buyer accept, seller accept and seller reject all commit a zero-row UPDATE
and report success. -/
theorem C9_counterexample :
    buyer_accept_negotiation dbEmpty 3 "neg-404" = (dbEmpty, .ok ())
    ∧ seller_accept_offer dbEmpty 3 "Tetsy" "neg-404" = (dbEmpty, .ok ())
    ∧ seller_reject_offer dbEmpty 3 "Tetsy" "neg-404" = (dbEmpty, .ok ()) := by
  refine ⟨by decide, by decide, by decide⟩

/-- C9 (amended): a mutating operation on a negotiation_id that does not
exist persists no change, but does not fail with NotFoundError: buyer
accept, seller accept and seller reject report success (their UPDATE
matches zero rows), while seller respond and buyer send_message fail with
the 500-wrapped "Not authorized" HTTPException(403). -/
theorem C9_unknown_id (db : DB) (now : Nat) (nid sid : String)
    (req : SendMessageRequest) (resp : SellerOfferResponse)
    (h : ∀ n ∈ db.negotiations, n.id ≠ nid) :
    buyer_accept_negotiation db now nid = (db, .ok ())
    ∧ seller_accept_offer db now sid nid = (db, .ok ())
    ∧ seller_reject_offer db now sid nid = (db, .ok ())
    ∧ seller_respond_to_offer db now sid nid resp = (db, .error .notAuthorized)
    ∧ send_message db now nid req = (db, .error .notAuthorized) := by
  have hpred : ∀ (q : Negotiation → Bool),
      ∀ n ∈ db.negotiations, (n.id == nid && q n) = false := by
    intro q n hn
    simp [beq_iff_eq, h n hn]
  have hany : ∀ (q : Negotiation → Bool),
      (db.negotiations.any fun n => n.id == nid && q n) = false := by
    intro q
    rw [List.any_eq_false]
    intro n hn
    simp [beq_iff_eq, h n hn]
  refine ⟨?_, ?_, ?_, ?_, ?_⟩
  · unfold buyer_accept_negotiation
    rw [updateNegotiations_no_match db _ _ (hpred _)]
  · unfold seller_accept_offer
    rw [updateNegotiations_no_match db _ _ (hpred _)]
  · unfold seller_reject_offer
    rw [updateNegotiations_no_match db _ _ (hpred _)]
  · unfold seller_respond_to_offer
    rw [if_pos (by simp [hany _])]
  · unfold send_message
    rw [if_pos (by simp [hany _])]

/-- C9 (witness): the unknown-id theorem at a database holding only the
negotiation neg-1, queried with neg-2. -/
theorem C9_unknown_id_witness :
    buyer_accept_negotiation dbPending 3 "neg-2" = (dbPending, .ok ())
    ∧ seller_respond_to_offer dbPending 3 "Tetsy" "neg-2"
        { negotiation_id := "neg-2", seller_id := "Tetsy", action := "accept" }
      = (dbPending, .error .notAuthorized) := by
  have h := C9_unknown_id dbPending 3 "neg-2" "Tetsy" sendOfferReq
    { negotiation_id := "neg-2", seller_id := "Tetsy", action := "accept" }
    (by decide)
  exact ⟨h.1, h.2.2.2.1⟩

/-- C10: negotiation and message ids are derived solely from the wall clock
in whole milliseconds ("neg-" / "msg-" plus the millisecond value), so two
message inserts with the same clock reading produce the same primary key:
the second request fails with an IntegrityError-backed 500 and persists
nothing, and likewise for two negotiation creations in the same
millisecond — id uniqueness is not guaranteed by construction. -/
theorem C10_ids_from_clock (db db1 dbs : DB) (now nowNeg nowMsg nowMsg2 : Nat)
    (nid nid2 rid : String) (req req2 : SendMessageRequest)
    (sreq sreq2 : StartNegotiationRequest) :
    (mkBuyerMsg now nid req).id = (mkBuyerMsg now nid2 req2).id
    ∧ (mkNegotiation nowNeg sreq).id = (mkNegotiation nowNeg sreq2).id
    ∧ (send_message db now nid req = (db1, .ok ()) →
        (db1.negotiations.any fun n => n.id == nid2 && n.buyer_id == BUYER_ID) = true →
        send_message db1 now nid2 req2 = (db1, .error .integrity))
    ∧ (start_negotiation db nowNeg nowMsg sreq = (dbs, .ok rid) →
        start_negotiation dbs nowNeg nowMsg2 sreq2 = (dbs, .error .integrity)) := by
  refine ⟨rfl, rfl, ?_, ?_⟩
  · intro h1 hown
    have hmsgs := send_message_ok_messages h1
    have hdup : insertMessage db1 (mkBuyerMsg now nid2 req2) = .error .integrity := by
      unfold insertMessage
      rw [if_pos]
      rw [List.any_eq_true]
      refine ⟨mkBuyerMsg now nid req, ?_, by simp [mkBuyerMsg]⟩
      rw [hmsgs]
      simp
    unfold send_message
    rw [if_neg (by simp [hown]), hdup]
  · intro h1
    have hnegs := start_negotiation_ok_negs h1
    have hdup : insertNegotiation dbs (mkNegotiation nowNeg sreq2) = .error .integrity := by
      unfold insertNegotiation
      rw [if_pos]
      rw [List.any_eq_true]
      refine ⟨mkNegotiation nowNeg sreq, ?_, by simp [mkNegotiation]⟩
      rw [hnegs]
      simp
    unfold start_negotiation
    rw [hdup]

/-- C10 (witness): repeating the same buyer offer in the same millisecond on
the concrete database: the second request fails with the integrity error
and persists nothing. -/
theorem C10_ids_from_clock_witness :
    send_message (send_message dbPending 5 "neg-1" sendOfferReq).1 5 "neg-1" sendOfferReq
      = ((send_message dbPending 5 "neg-1" sendOfferReq).1, .error .integrity) :=
  (C10_ids_from_clock dbPending (send_message dbPending 5 "neg-1" sendOfferReq).1
      dbEmpty 5 0 0 0 "neg-1" "neg-1" "x" sendOfferReq sendOfferReq
      { product_id := "p", product_title := "t", seller_id := "s", offer_amount := 50 }
      { product_id := "p", product_title := "t", seller_id := "s", offer_amount := 50 }).2.2.1
    (by decide) (by decide)

end Claims

